import Mathlib

/-!
A verification development for `llama_chatbot.py`, a single-file CLI chatbot
front-end.  The Python source is shallowly embedded below: the conversation
state machine (`ChatBot`), the prompt formatter (`format_chat_history`), the
streaming consume loop inside `ChatBot.chat`, the session persistence
operations (`save_chat`, `list_saved_chats`, `clear_chat`) and the command
dispatcher of `main` are translated into executable Lean definitions, and the
specified properties are settled as theorems about those definitions.

Python strings are modelled as Lean `String` (a list of characters, which
matches Python's per-character slicing and `len`); the string helpers used by
the source (`in`, `replace`, `strip`, `lower`, `startswith`, `endswith`,
`split(maxsplit=1)`) are defined below on the character list so that they
evaluate inside the kernel.  The external inference engine is modelled as the
stream of outputs it hands to the consume loop; the filesystem is modelled as
a list of (name, mtime, size) entries.
-/

namespace LlamaChat

/-! ### Character-list string helpers (Python string semantics) -/

/-- `isPrefixL pat l` : does `l` start with `pat`? -/
def isPrefixL : List Char → List Char → Bool
  | [], _ => true
  | _ :: _, [] => false
  | p :: ps, c :: cs => p == c && isPrefixL ps cs

/-- Python `pat in s` on character lists: some suffix of `l` starts with `pat`. -/
def containsL (pat : List Char) : List Char → Bool
  | [] => isPrefixL pat []
  | c :: cs => isPrefixL pat (c :: cs) || containsL pat cs

/-- Python `s.replace(pat, "")` on character lists, with explicit fuel so the
recursion is structural (fuel `l.length` is always enough: each step consumes
at least one character when `pat` is non-empty). -/
def removeAllFuel (pat : List Char) : Nat → List Char → List Char
  | _, [] => []
  | 0, l => l
  | fuel + 1, c :: cs =>
    if pat ≠ [] && isPrefixL pat (c :: cs) then
      removeAllFuel pat fuel ((c :: cs).drop pat.length)
    else
      c :: removeAllFuel pat fuel cs

/-- Python `pat in s`. -/
def pyContains (s pat : String) : Bool := containsL pat.data s.data

/-- Python `s.replace(pat, "")`. -/
def pyReplaceAll (s pat : String) : String := ⟨removeAllFuel pat.data s.data.length s.data⟩

/-- Python `s.strip()`: drop leading and trailing whitespace. -/
def pyStrip (s : String) : String :=
  ⟨((s.data.dropWhile Char.isWhitespace).reverse.dropWhile Char.isWhitespace).reverse⟩

/-- Python `s.lower()`. -/
def pyLower (s : String) : String := ⟨s.data.map Char.toLower⟩

/-- Python `s.startswith(pat)`. -/
def pyStartsWith (s pat : String) : Bool := isPrefixL pat.data s.data

/-- Python `s.endswith(pat)`. -/
def pyEndsWith (s pat : String) : Bool := isPrefixL pat.data.reverse s.data.reverse

/-- Python character slice `s[n:]`. -/
def pyDrop (s : String) : Nat → String
  | n => ⟨s.data.drop n⟩

/-- Python `s.split(maxsplit=1)`: split on runs of whitespace, at most once;
never yields empty parts; the remainder keeps everything after the first run
of whitespace following the first word. -/
def pySplitMax1 (s : String) : List String :=
  let l := s.data.dropWhile Char.isWhitespace
  if l.isEmpty then []
  else
    let word := l.takeWhile (fun c => !c.isWhitespace)
    let rest := (l.dropWhile (fun c => !c.isWhitespace)).dropWhile Char.isWhitespace
    if rest.isEmpty then [⟨word⟩] else [⟨word⟩, ⟨rest⟩]

/-! ### Fixed template strings from the source -/

def eotMarker : String := "<|eot_id|>"

def beginMarker : String := "<|begin_of_text|>"

def headerStart : String := "<|start_header_id|>"

def headerEnd : String := "<|end_header_id|>\n\n"

def systemRole : String := "system"

def assistantRole : String := "assistant"

def userRole : String := "user"

/-- The literal appended in `chat`: `"<|start_header_id|>assistant<|end_header_id|>\n\n"`. -/
def assistantHeader : String := headerStart ++ assistantRole ++ headerEnd

def jsonExt : String := ".json"

def chatFileStem : String := "chat_"

def stopReason : String := "stop"

def yesStr : String := "y"

def slashStr : String := "/"

/-! ### Data model -/

/-- Role tag of a conversation turn (the `"role"` field of a history entry). -/
inductive Role
  | user
  | assistant
deriving DecidableEq

/-- One `{"role": ..., "content": ...}` entry of `self.chat_history`. -/
structure Turn where
  role : Role
  content : String
deriving DecidableEq

def roleStr : Role → String
  | Role.user => userRole
  | Role.assistant => assistantRole

/-- One element of `output["choices"]`: the generated text fragment and the
optional finish reason. -/
structure Choice where
  text : String
  finish_reason : Option String
deriving DecidableEq

/-- One streamed `output` dictionary; a missing or empty `"choices"` key is
modelled as the empty list. -/
structure Output where
  choices : List Choice
deriving DecidableEq

/-- Outcome of the blocking streaming call in `chat`: the full stream of
outputs on normal completion, or a `KeyboardInterrupt`, or any other
exception raised while streaming. -/
inductive StreamResult
  | ok (outputs : List Output)
  | interrupted
  | error
deriving DecidableEq

/-- The mutable fields of the `ChatBot` object. -/
structure BotState where
  llm : Bool
  chat_history : List Turn
  system_prompt : String
  current_chat_file : Option String
deriving DecidableEq

/-- One file of the `chat_history` directory. -/
structure FileEntry where
  name : String
  mtime : Nat
  size : Nat
deriving DecidableEq

/-- The `chat_history` directory, in directory-enumeration order. -/
abbrev FileSystem := List FileEntry

/-! ### `ChatBot.format_chat_history` and the prompt built in `chat` -/

/-- The block contributed by one history entry:
`"<|start_header_id|>{role}<|end_header_id|>\n\n{content}<|eot_id|>"`. -/
def turnBlock (t : Turn) : String :=
  headerStart ++ roleStr t.role ++ headerEnd ++ t.content ++ eotMarker

/-- `ChatBot.format_chat_history`: the system block followed by one block per
history entry, accumulated left to right. -/
def format_chat_history (st : BotState) : String :=
  st.chat_history.foldl (fun acc t => acc ++ turnBlock t)
    (beginMarker ++ headerStart ++ systemRole ++ headerEnd ++ st.system_prompt ++ eotMarker)

/-- The prompt actually sent to the engine in `chat` (the formatted history
plus the open assistant header appended at line 136). -/
def chatPrompt (st : BotState) : String :=
  format_chat_history st ++ assistantHeader

/-! ### The streaming consume loop of `ChatBot.chat` (lines 143-159) -/

/-- The accumulated `response_text` produced by the `for output in ...` loop:
outputs with no choices are skipped; a `finish_reason == "stop"` breaks before
accumulating; a fragment containing the stop marker has every occurrence of
the marker removed, is accumulated, and breaks; any other fragment is
accumulated and the loop continues. -/
def consumeStream : List Output → String
  | [] => ""
  | out :: rest =>
    match out.choices with
    | [] => consumeStream rest
    | choice :: _ =>
      if choice.finish_reason = some stopReason then ""
      else if pyContains choice.text eotMarker then pyReplaceAll choice.text eotMarker
      else choice.text ++ consumeStream rest

/-- `ChatBot.chat`: append the user turn, run the stream, strip the result;
on interruption, error, or a too-short response pop the user turn and return
`none`; otherwise append the assistant turn and return the response. -/
def chat (st : BotState) (user_input : String) (sr : StreamResult) :
    BotState × Option String :=
  if st.llm = false then (st, none)
  else
    let h1 := st.chat_history ++ [⟨Role.user, user_input⟩]
    match sr with
    | StreamResult.interrupted => ({ st with chat_history := h1.dropLast }, none)
    | StreamResult.error => ({ st with chat_history := h1.dropLast }, none)
    | StreamResult.ok outs =>
      let response_text := pyStrip (consumeStream outs)
      if response_text = "" ∨ response_text.length < 2 then
        ({ st with chat_history := h1.dropLast }, none)
      else
        ({ st with chat_history := h1 ++ [⟨Role.assistant, response_text⟩] },
          some response_text)

/-- Whether a given stream outcome makes `chat` succeed (this depends only on
the stream, not on the prior state, once the model is loaded). -/
def callSucceeds : StreamResult → Bool
  | StreamResult.ok outs =>
    let r := pyStrip (consumeStream outs)
    !(r = "" ∨ r.length < 2 : Bool)
  | StreamResult.interrupted => false
  | StreamResult.error => false

/-- Run a sequence of `chat` calls, each with its own user input and stream
outcome, threading the bot state. -/
def runChats (st : BotState) : List (String × StreamResult) → BotState
  | [] => st
  | (input, sr) :: rest => runChats (chat st input sr).1 rest

/-! ### `ChatBot.clear_chat` (lines 184-196) -/

/-- `ChatBot.clear_chat`: a no-op on an empty history; otherwise clears the
history and the associated file exactly when the confirmation input, stripped
and lowercased, is `"y"`. -/
def clear_chat (st : BotState) (confirmInput : String) : BotState :=
  if st.chat_history = [] then st
  else if pyLower (pyStrip confirmInput) = yesStr then
    { st with chat_history := [], current_chat_file := none }
  else st

/-! ### `ChatBot.save_chat` (lines 198-230) and `list_saved_chats` (232-250) -/

/-- Target-file resolution of `save_chat` (lines 204-212).  Python's
`if not custom_filename` treats both `None` and the empty string as absent. -/
def resolveSaveFilename (custom : Option String) (current : Option String)
    (ts : String) : String :=
  match custom with
  | none =>
    (match current with
     | some f => f
     | none => chatFileStem ++ ts ++ jsonExt)
  | some c =>
    if c = "" then
      (match current with
       | some f => f
       | none => chatFileStem ++ ts ++ jsonExt)
    else if pyEndsWith c jsonExt then c else c ++ jsonExt

/-- Write (create or overwrite) a named file in the directory. -/
def writeFile (fs : FileSystem) (name : String) (mtime size : Nat) : FileSystem :=
  if fs.any (fun f => f.name = name) then
    fs.map (fun f => if f.name = name then ⟨name, mtime, size⟩ else f)
  else
    fs ++ [⟨name, mtime, size⟩]

/-- `ChatBot.save_chat`.  `ts` is the formatted current timestamp, `ioOk`
tells whether the write succeeds, `mtime`/`size` are the written file's
metadata.  Returns the new bot state, the new directory, and the name written
(`none` when nothing was written). -/
def save_chat (st : BotState) (fs : FileSystem) (custom : Option String)
    (ts : String) (ioOk : Bool) (mtime size : Nat) :
    BotState × FileSystem × Option String :=
  if st.chat_history = [] then (st, fs, none)
  else
    let filename := resolveSaveFilename custom st.current_chat_file ts
    if ioOk then
      ({ st with current_chat_file := some filename },
        writeFile fs filename mtime size, some filename)
    else (st, fs, none)

/-- The ordering used by `list_saved_chats`: `a` may precede `b` when `a` is
at least as recent.  Python's `sorted(..., reverse=True)` is stable, which is
exactly Mathlib's insertion sort with this non-strict relation. -/
def newerEq (a b : FileEntry) : Prop := b.mtime ≤ a.mtime

instance : DecidableRel newerEq := fun a b => Nat.decLe b.mtime a.mtime

instance : IsTotal FileEntry newerEq := ⟨fun a b => Nat.le_total b.mtime a.mtime⟩

instance : IsTrans FileEntry newerEq := ⟨fun _ _ _ h h' => Nat.le_trans h' h⟩

/-- `ChatBot.list_saved_chats`: the names matching `*.json`, sorted by
modification time, most recent first (stable on ties).  A pure query: it
takes no bot state and returns only the listing. -/
def list_saved_chats (fs : FileSystem) : List String :=
  (List.insertionSort newerEq (fs.filter (fun f => pyEndsWith f.name jsonExt))).map
    (fun f => f.name)

/-! ### The command dispatcher of `main` (lines 344-395) -/

/-- The per-iteration external inputs consumed by one pass of the loop body:
the engine's stream (used when the line is a chat message), the confirmation
line read by `clear_chat`, the timestamp and write outcome used by
`save_chat`. -/
structure LoopEnv where
  stream : StreamResult
  confirmInput : String
  ts : String
  ioOk : Bool
  mtime : Nat
  size : Nat
deriving DecidableEq

/-- One iteration's input: a line typed at the prompt, or a
`KeyboardInterrupt` raised at the prompt. -/
inductive InputEvent
  | line (s : String) (env : LoopEnv)
  | interrupt
deriving DecidableEq

/-- Outcome of one loop-body pass: continue looping, break out via a quit
alias, or an unhandled exception propagating out of the `while` (caught by
the outer handler, so the process still finishes normally). -/
inductive StepOutcome
  | next (st : BotState) (fs : FileSystem)
  | quitLoop (st : BotState) (fs : FileSystem)
  | crash (st : BotState) (fs : FileSystem)
deriving DecidableEq

/-- One pass of the `while True` body.  A bare `/` makes
`command_parts[0]` raise `IndexError` (modelled as `crash`); `help`, `list`,
`stats`, `history` and unknown commands touch no state (`display_history`
catches its own `ValueError`); quit aliases break the loop. -/
def loopStep (st : BotState) (fs : FileSystem) : InputEvent → StepOutcome
  | InputEvent.interrupt => StepOutcome.next st fs
  | InputEvent.line s env =>
    let input := pyStrip s
    if input = "" then StepOutcome.next st fs
    else if pyStartsWith input slashStr then
      match pySplitMax1 (pyDrop input 1) with
      | [] => StepOutcome.crash st fs
      | cmd :: rest =>
        let command := pyLower cmd
        let args : Option String := rest.head?
        if command = "quit" ∨ command = "exit" ∨ command = "q" then
          StepOutcome.quitLoop st fs
        else if command = "clear" then
          StepOutcome.next (clear_chat st env.confirmInput) fs
        else if command = "save" then
          let r := save_chat st fs args env.ts env.ioOk env.mtime env.size
          StepOutcome.next r.1 r.2.1
        else
          StepOutcome.next st fs
    else
      StepOutcome.next (chat st input env.stream).1 fs

/-- Run the loop over a list of input events.  An exhausted event list models
end of input (`EOFError`), which like a crash is caught by the outer handler. -/
def runLoop (st : BotState) (fs : FileSystem) : List InputEvent → BotState × FileSystem
  | [] => (st, fs)
  | ev :: rest =>
    match loopStep st fs ev with
    | StepOutcome.next st' fs' => runLoop st' fs' rest
    | StepOutcome.quitLoop st' fs' => (st', fs')
    | StepOutcome.crash st' fs' => (st', fs')

/-- `main` (lines 326-408): exit code 1 when the model artifact is missing or
engine initialization fails; otherwise the loop runs to completion and the
process exits 0.  Every error inside the loop is caught (per request or by
the outer handler), so a startup success always ends with exit code 0. -/
def mainRun (modelExists loadOk : Bool) (st : BotState) (fs : FileSystem)
    (events : List InputEvent) : Nat × BotState × FileSystem :=
  if modelExists = false then (1, st, fs)
  else if loadOk = false then (1, st, fs)
  else
    let r := runLoop st fs events
    (0, r.1, r.2)

end LlamaChat

namespace LlamaChat

/-! ### Helper lemmas -/

theorem isPrefixL_append_self : ∀ (l t : List Char), isPrefixL l (l ++ t) = true
  | [], _ => rfl
  | c :: cs, t => by simp [isPrefixL, isPrefixL_append_self cs t]

theorem pyEndsWith_append (a b : String) : pyEndsWith (a ++ b) b = true := by
  unfold pyEndsWith
  rw [String.data_append, List.reverse_append]
  exact isPrefixL_append_self _ _

/-! ### Claim theorems -/

/-- Claim C10: a save on a conversation with an empty Turn Store is a no-op:
no file is written, the directory is untouched, and the bot state (including
the associated file name) is unchanged. -/
theorem save_chat_empty_noop (st : BotState) (fs : FileSystem) (custom : Option String)
    (ts : String) (ioOk : Bool) (mtime size : Nat) (h : st.chat_history = []) :
    save_chat st fs custom ts ioOk mtime size = (st, fs, none) := by
  simp [save_chat, h]

theorem save_chat_empty_noop_witness :
    (BotState.mk true [] "sys" none).chat_history = [] ∧
      save_chat (BotState.mk true [] "sys" none) [] none "20240101_120000" true 1 1
        = (BotState.mk true [] "sys" none, [], none) :=
  ⟨rfl, save_chat_empty_noop _ _ _ _ _ _ _ rfl⟩

/-- Claim C6: a save whose write raises (modelled by `ioOk = false`) leaves
the conversation untouched: the Turn Store, the system prompt and the
associated file name are those from before the call, and nothing was
written. -/
theorem save_chat_io_failure_state_unchanged (st : BotState) (fs : FileSystem)
    (custom : Option String) (ts : String) (mtime size : Nat) :
    (save_chat st fs custom ts false mtime size).1.chat_history = st.chat_history ∧
    (save_chat st fs custom ts false mtime size).1.system_prompt = st.system_prompt ∧
    (save_chat st fs custom ts false mtime size).1.current_chat_file = st.current_chat_file ∧
    (save_chat st fs custom ts false mtime size).2.2 = none := by
  by_cases h : st.chat_history = [] <;> simp [save_chat, h]

/-- Claim C7: on a non-empty Turn Store, a clear whose confirmation input is
not `y` (stripped, lowercased) changes neither the Turn Store nor the
associated file name, while a confirmed clear empties the store and drops the
file association. -/
theorem clear_chat_confirmation (st : BotState) (confirmInput : String)
    (hne : st.chat_history ≠ []) :
    (pyLower (pyStrip confirmInput) ≠ yesStr → clear_chat st confirmInput = st) ∧
    (pyLower (pyStrip confirmInput) = yesStr →
      (clear_chat st confirmInput).chat_history = [] ∧
      (clear_chat st confirmInput).current_chat_file = none) := by
  constructor
  · intro h; simp [clear_chat, hne, h]
  · intro h; simp [clear_chat, hne, h]

theorem clear_chat_confirmation_witness :
    ((BotState.mk true [Turn.mk Role.user "hi"] "s" (some "f.json")).chat_history ≠ [] ∧
      (clear_chat (BotState.mk true [Turn.mk Role.user "hi"] "s" (some "f.json")) "n"
        = BotState.mk true [Turn.mk Role.user "hi"] "s" (some "f.json"))) ∧
    ((clear_chat (BotState.mk true [Turn.mk Role.user "hi"] "s" (some "f.json")) " Y ").chat_history = [] ∧
      (clear_chat (BotState.mk true [Turn.mk Role.user "hi"] "s" (some "f.json")) " Y ").current_chat_file = none) :=
  ⟨⟨by decide,
      (clear_chat_confirmation (BotState.mk true [Turn.mk Role.user "hi"] "s" (some "f.json"))
        "n" (by decide)).1 (by decide)⟩,
    (clear_chat_confirmation (BotState.mk true [Turn.mk Role.user "hi"] "s" (some "f.json"))
      " Y " (by decide)).2 (by decide)⟩

/-- Claim C2: on any failed chat call — interruption, a streaming error, or a
stream whose stripped accumulated response is shorter than 2 characters — the
just-added user turn is rolled back, so the Turn Store equals its value from
before the call (hence its length is unchanged and no assistant turn was
appended), and the call returns `none` instead of raising. -/
theorem chat_failure_rolls_back (st : BotState) (input : String) (sr : StreamResult)
    (hllm : st.llm = true)
    (hfail : sr = StreamResult.interrupted ∨ sr = StreamResult.error ∨
      ∃ outs, sr = StreamResult.ok outs ∧ (pyStrip (consumeStream outs)).length < 2) :
    (chat st input sr).1.chat_history = st.chat_history ∧
    (chat st input sr).1.chat_history.length = st.chat_history.length ∧
    (chat st input sr).2 = none := by
  rcases hfail with h | h | ⟨outs, h, hlen⟩ <;> subst h
  · simp [chat, hllm]
  · simp [chat, hllm]
  · have hcond : pyStrip (consumeStream outs) = "" ∨
        (pyStrip (consumeStream outs)).length < 2 := Or.inr hlen
    simp [chat, hllm, hcond]

theorem chat_failure_rolls_back_witness :
    ((BotState.mk true [] "s" none).llm = true) ∧
    ((chat (BotState.mk true [] "s" none) "Hi" (StreamResult.ok [Output.mk [Choice.mk "x" none]])).1.chat_history
        = (BotState.mk true [] "s" none).chat_history ∧
      (chat (BotState.mk true [] "s" none) "Hi" (StreamResult.ok [Output.mk [Choice.mk "x" none]])).1.chat_history.length
        = (BotState.mk true [] "s" none).chat_history.length ∧
      (chat (BotState.mk true [] "s" none) "Hi" (StreamResult.ok [Output.mk [Choice.mk "x" none]])).2 = none) :=
  ⟨rfl, chat_failure_rolls_back (BotState.mk true [] "s" none) "Hi"
    (StreamResult.ok [Output.mk [Choice.mk "x" none]]) rfl
    (Or.inr (Or.inr ⟨[Output.mk [Choice.mk "x" none]], rfl, by decide⟩))⟩

/-! ### Claim C1: the consume loop on a marker-bearing fragment -/

/-- An output the consume loop passes over without breaking: either it has no
choices (skipped) or its first choice has no stop finish reason and no stop
marker (accumulated, loop continues). -/
def passThrough (o : Output) : Bool :=
  match o.choices with
  | [] => true
  | c :: _ => !(c.finish_reason == some stopReason) && !(pyContains c.text eotMarker)

/-- The text the consume loop accumulates for one pass-through output. -/
def outText (o : Output) : String :=
  match o.choices with
  | [] => ""
  | c :: _ => c.text

/-- Concatenation of the texts of a run of outputs. -/
def textsJoin : List Output → String
  | [] => ""
  | o :: rest => outText o ++ textsJoin rest

theorem empty_append_str (s : String) : "" ++ s = s := by
  cases s
  rfl

theorem append_empty_str (s : String) : s ++ "" = s := by
  cases s with
  | mk d =>
    show String.mk (d ++ []) = String.mk d
    rw [List.append_nil]

/-- Claim C1 counterexample: on the fragment `"Hi<|eot_id|>there"` the loop
keeps the text after the marker — `token.replace` removes the marker itself
but not what follows it — so the accumulated response is `"Hithere"`, not the
remainder `"Hi"` preceding the marker that the claim requires. -/
theorem consume_marker_keeps_trailing_text :
    pyContains "Hi<|eot_id|>there" eotMarker = true ∧
    consumeStream [Output.mk [Choice.mk "Hi<|eot_id|>there" none]] = "Hithere" ∧
    ("Hithere" : String) ≠ "Hi" :=
  ⟨by decide, by decide, by decide⟩

/-- Claim C1 (amended): when a fragment containing the stop-marker substring
arrives after any run of pass-through fragments, the consume loop has
accumulated the pass-through texts, removes every occurrence of the marker
from the fragment (keeping the text on both sides of it), accumulates that
remainder, and stops consuming: outputs after the fragment do not affect the
result. -/
theorem consume_marker_stops (pre : List Output) (t : String) (rest : List Output)
    (hpre : ∀ o ∈ pre, passThrough o = true)
    (ht : pyContains t eotMarker = true) :
    consumeStream (pre ++ Output.mk [Choice.mk t none] :: rest)
      = textsJoin pre ++ pyReplaceAll t eotMarker := by
  induction pre with
  | nil =>
    simp [consumeStream, textsJoin, ht, stopReason, empty_append_str]
  | cons o os ih =>
    have hpt : passThrough o = true := hpre o (List.mem_cons_self _ _)
    have ih' := ih (fun x hx => hpre x (List.mem_cons_of_mem _ hx))
    cases hoc : o.choices with
    | nil =>
      simp only [List.cons_append, consumeStream, hoc, textsJoin, outText,
        empty_append_str]
      exact ih'
    | cons c cs =>
      unfold passThrough at hpt
      rw [hoc] at hpt
      simp at hpt
      simp only [List.cons_append, consumeStream, hoc, textsJoin, outText]
      simp [hpt.1, hpt.2, String.append_assoc]
      rw [ih']

theorem consume_marker_stops_witness :
    (∀ o ∈ [Output.mk [Choice.mk "Hel" none], Output.mk [Choice.mk "lo" none],
        Output.mk [Choice.mk "!" none]], passThrough o = true) ∧
    pyContains "<|eot_id|>" eotMarker = true ∧
    consumeStream ([Output.mk [Choice.mk "Hel" none], Output.mk [Choice.mk "lo" none],
        Output.mk [Choice.mk "!" none]] ++ Output.mk [Choice.mk "<|eot_id|>" none] :: [])
      = "Hello!" :=
  ⟨by decide, by decide,
    (consume_marker_stops [Output.mk [Choice.mk "Hel" none], Output.mk [Choice.mk "lo" none],
        Output.mk [Choice.mk "!" none]] "<|eot_id|>" [] (by decide) (by decide)).trans
      (by decide)⟩

/-! ### Claim C4: the shape of the formatted prompt -/

/-- Per-turn blocks concatenated in order. -/
def turnsBlob : List Turn → String
  | [] => ""
  | t :: rest => turnBlock t ++ turnsBlob rest

theorem foldl_turnBlock : ∀ (l : List Turn) (init : String),
    l.foldl (fun acc t => acc ++ turnBlock t) init = init ++ turnsBlob l
  | [], init => by simp [turnsBlob, append_empty_str]
  | t :: rest, init => by
    simp only [List.foldl, turnsBlob, foldl_turnBlock rest (init ++ turnBlock t),
      String.append_assoc]

/-- Claim C4: for every system prompt and every turn history, the prompt
string built for the engine begins with the fixed begin marker and ends with
the open assistant-role header, and that trailing header is not followed by
an end-of-turn marker. -/
theorem prompt_brackets (st : BotState) :
    (∃ t, chatPrompt st = beginMarker ++ t) ∧
    (∃ u, chatPrompt st = u ++ assistantHeader) ∧
    (∀ w, chatPrompt st ≠ w ++ (assistantHeader ++ eotMarker)) := by
  refine ⟨?_, ⟨format_chat_history st, rfl⟩, ?_⟩
  · refine ⟨headerStart ++ (systemRole ++ (headerEnd ++ (st.system_prompt ++ (eotMarker ++
      (turnsBlob st.chat_history ++ assistantHeader))))), ?_⟩
    simp [chatPrompt, format_chat_history, foldl_turnBlock, String.append_assoc]
  · intro w h
    have h1 : (chatPrompt st).data.getLast? = assistantHeader.data.getLast? := by
      show (format_chat_history st ++ assistantHeader).data.getLast? = _
      rw [String.data_append]
      exact List.getLast?_append_of_ne_nil _ (by decide)
    have h2 : (chatPrompt st).data.getLast? = (assistantHeader ++ eotMarker).data.getLast? := by
      rw [h, String.data_append]
      exact List.getLast?_append_of_ne_nil _ (by decide)
    rw [h1] at h2
    exact absurd h2 (by decide)

/-! ### Claim C3: the Turn Store alternation invariant -/

/-- The history is a sequence of complete user/assistant exchanges: roles
alternate user, assistant, starting with user, and no trailing user turn is
left unanswered. -/
def pairedHistory : List Turn → Bool
  | [] => true
  | [_] => false
  | t1 :: t2 :: rest =>
    (t1.role == Role.user) && (t2.role == Role.assistant) && pairedHistory rest

theorem pairedHistory_append (u a : String) :
    ∀ h : List Turn, pairedHistory h = true →
      pairedHistory (h ++ [Turn.mk Role.user u, Turn.mk Role.assistant a]) = true
  | [], _ => by simp [pairedHistory]
  | [t], hp => by simp [pairedHistory] at hp
  | t1 :: t2 :: rest, hp => by
    simp [pairedHistory] at hp ⊢
    exact ⟨hp.1, pairedHistory_append u a rest hp.2⟩

/-- A successful `chat` call appends exactly the user turn and one assistant
turn, and keeps the engine handle. -/
theorem chat_success_step (st : BotState) (input : String) (sr : StreamResult)
    (hllm : st.llm = true) (hs : callSucceeds sr = true) :
    ∃ resp, (chat st input sr).1.chat_history
        = st.chat_history ++ [Turn.mk Role.user input, Turn.mk Role.assistant resp] ∧
      (chat st input sr).1.llm = true := by
  cases sr with
  | interrupted => simp [callSucceeds] at hs
  | error => simp [callSucceeds] at hs
  | ok outs =>
    simp only [callSucceeds, Bool.not_eq_true', decide_eq_false_iff_not] at hs
    refine ⟨pyStrip (consumeStream outs), ?_, ?_⟩
    · simp [chat, hllm, hs]
    · simp [chat, hllm, hs]

/-- Every `chat` call — successful or failed — keeps the engine handle and
preserves the pairing invariant. -/
theorem chat_preserves_paired (st : BotState) (input : String) (sr : StreamResult)
    (hp : pairedHistory st.chat_history = true) :
    pairedHistory (chat st input sr).1.chat_history = true ∧
    (chat st input sr).1.llm = st.llm := by
  by_cases hllm : st.llm = true
  · cases sr with
    | interrupted => simp [chat, hllm, hp]
    | error => simp [chat, hllm, hp]
    | ok outs =>
      by_cases hc : pyStrip (consumeStream outs) = "" ∨ (pyStrip (consumeStream outs)).length < 2
      · simp [chat, hllm, hc, hp]
      · simp [chat, hllm, hc]
        exact pairedHistory_append _ _ _ hp
  · have hf : st.llm = false := by simpa using hllm
    simp [chat, hf, hp]

theorem runChats_paired : ∀ (calls : List (String × StreamResult)) (st : BotState),
    pairedHistory st.chat_history = true →
    pairedHistory (runChats st calls).chat_history = true
  | [], _, hp => hp
  | (input, sr) :: rest, st, hp =>
    runChats_paired rest _ ((chat_preserves_paired st input sr hp).1)

theorem runChats_success_length : ∀ (calls : List (String × StreamResult)) (st : BotState),
    st.llm = true → (∀ p ∈ calls, callSucceeds p.2 = true) →
    (runChats st calls).chat_history.length = st.chat_history.length + 2 * calls.length ∧
    (runChats st calls).llm = true
  | [], st, hllm, _ => by simp [runChats, hllm]
  | (input, sr) :: rest, st, hllm, hs => by
    obtain ⟨resp, hhist, hllm'⟩ :=
      chat_success_step st input sr hllm (hs _ (List.mem_cons_self _ _))
    have ih := runChats_success_length rest (chat st input sr).1 hllm'
      (fun p hp => hs p (List.mem_cons_of_mem _ hp))
    refine ⟨?_, ih.2⟩
    show (runChats (chat st input sr).1 rest).chat_history.length = _
    rw [ih.1, hhist]
    simp [List.length_append]
    omega

/-- Claim C3: from an empty Turn Store, after any sequence of successful chat
calls the store holds exactly twice as many turns as calls and is a sequence
of user/assistant pairs (roles alternate starting with user); and after any
sequence of chat calls whatsoever — failures included — the store still
consists of complete pairs, so it never ends in an unanswered user turn. -/
theorem turn_store_alternation (st : BotState) (calls anyCalls : List (String × StreamResult))
    (hllm : st.llm = true) (hemp : st.chat_history = [])
    (hsucc : ∀ p ∈ calls, callSucceeds p.2 = true) :
    (runChats st calls).chat_history.length = 2 * calls.length ∧
    pairedHistory (runChats st calls).chat_history = true ∧
    pairedHistory (runChats st anyCalls).chat_history = true := by
  have hp : pairedHistory st.chat_history = true := by rw [hemp]; rfl
  refine ⟨?_, runChats_paired calls st hp, runChats_paired anyCalls st hp⟩
  have hlen := (runChats_success_length calls st hllm hsucc).1
  rw [hlen, hemp]
  simp

theorem turn_store_alternation_witness :
    ((BotState.mk true [] "s" none).llm = true) ∧
    ((BotState.mk true [] "s" none).chat_history = []) ∧
    (∀ p ∈ [(("Hi" : String), StreamResult.ok [Output.mk [Choice.mk "Hello!" none]])],
      callSucceeds p.2 = true) ∧
    ((runChats (BotState.mk true [] "s" none)
          [("Hi", StreamResult.ok [Output.mk [Choice.mk "Hello!" none]])]).chat_history.length
        = 2 * [(("Hi" : String), StreamResult.ok [Output.mk [Choice.mk "Hello!" none]])].length ∧
      pairedHistory (runChats (BotState.mk true [] "s" none)
          [("Hi", StreamResult.ok [Output.mk [Choice.mk "Hello!" none]])]).chat_history = true ∧
      pairedHistory (runChats (BotState.mk true [] "s" none)
          [(("Oops" : String), StreamResult.interrupted)]).chat_history = true) :=
  ⟨rfl, rfl, by decide,
    turn_store_alternation (BotState.mk true [] "s" none)
      [("Hi", StreamResult.ok [Output.mk [Choice.mk "Hello!" none]])]
      [("Oops", StreamResult.interrupted)] rfl rfl (by decide)⟩

/-! ### Claim C5: save-file name resolution and association -/

theorem writeFile_mem_name (fs : FileSystem) (name : String) (mt sz : Nat) :
    FileEntry.mk name mt sz ∈ writeFile fs name mt sz := by
  unfold writeFile
  by_cases h : fs.any (fun f => f.name = name) = true
  · rw [if_pos h]
    obtain ⟨y, hy, hyn⟩ := List.any_eq_true.mp h
    apply List.mem_map.mpr
    exact ⟨y, hy, by simp [of_decide_eq_true hyn]⟩
  · rw [if_neg h]
    simp

theorem writeFile_length_overwrite (fs : FileSystem) (name : String) (mt sz : Nat)
    (h : fs.any (fun f => f.name = name) = true) :
    (writeFile fs name mt sz).length = fs.length := by
  simp [writeFile, h]

/-- Claim C5: the save target is the explicit name (with `.json` appended
when absent) when a non-empty one is given, else the name the conversation
is already associated with, else `chat_<timestamp>.json`; a successful save
associates the conversation with the resolved name, and a subsequent save
without an explicit name writes that very name again, overwriting the
existing file rather than creating a new one. -/
theorem save_filename_resolution (st : BotState) (fs : FileSystem)
    (custom : Option String) (ts ts2 : String) (mt sz mt2 sz2 : Nat)
    (hne : st.chat_history ≠ []) :
    (∀ c, custom = some c → c ≠ "" →
      resolveSaveFilename custom st.current_chat_file ts
        = if pyEndsWith c jsonExt then c else c ++ jsonExt) ∧
    (∀ f, custom = none → st.current_chat_file = some f →
      resolveSaveFilename custom st.current_chat_file ts = f) ∧
    (custom = none → st.current_chat_file = none →
      resolveSaveFilename custom st.current_chat_file ts = chatFileStem ++ ts ++ jsonExt) ∧
    (save_chat st fs custom ts true mt sz).1.current_chat_file
      = some (resolveSaveFilename custom st.current_chat_file ts) ∧
    (save_chat (save_chat st fs custom ts true mt sz).1
        (save_chat st fs custom ts true mt sz).2.1 none ts2 true mt2 sz2).2.2
      = some (resolveSaveFilename custom st.current_chat_file ts) ∧
    (save_chat (save_chat st fs custom ts true mt sz).1
        (save_chat st fs custom ts true mt sz).2.1 none ts2 true mt2 sz2).2.1.length
      = (save_chat st fs custom ts true mt sz).2.1.length := by
  have hany : (writeFile fs (resolveSaveFilename custom st.current_chat_file ts) mt sz).any
      (fun f => f.name = resolveSaveFilename custom st.current_chat_file ts) = true :=
    List.any_eq_true.mpr
      ⟨FileEntry.mk (resolveSaveFilename custom st.current_chat_file ts) mt sz,
        writeFile_mem_name fs _ mt sz, by simp⟩
  refine ⟨?_, ?_, ?_, ?_, ?_, ?_⟩
  · intro c hc hcne; subst hc; simp [resolveSaveFilename, hcne]
  · intro f hc hf; subst hc; simp [resolveSaveFilename, hf]
  · intro hc hf; subst hc; simp [resolveSaveFilename, hf]
  · simp [save_chat, hne]
  · simp [save_chat, hne, resolveSaveFilename]
  · simp [save_chat, hne, resolveSaveFilename]
    exact writeFile_length_overwrite _ _ _ _ hany

theorem save_filename_resolution_witness :
    ((BotState.mk true [Turn.mk Role.user "q"] "s" none).chat_history ≠ []) ∧
    (save_chat (BotState.mk true [Turn.mk Role.user "q"] "s" none) [] (some "notes")
        "20240101_120000" true 1 2).1.current_chat_file = some "notes.json" ∧
    (save_chat (save_chat (BotState.mk true [Turn.mk Role.user "q"] "s" none) [] (some "notes")
          "20240101_120000" true 1 2).1
        (save_chat (BotState.mk true [Turn.mk Role.user "q"] "s" none) [] (some "notes")
          "20240101_120000" true 1 2).2.1 none "x" true 3 4).2.2 = some "notes.json" :=
  ⟨by decide,
    ((save_filename_resolution (BotState.mk true [Turn.mk Role.user "q"] "s" none) []
        (some "notes") "20240101_120000" "x" 1 2 3 4 (by decide)).2.2.2.1).trans (by decide),
    ((save_filename_resolution (BotState.mk true [Turn.mk Role.user "q"] "s" none) []
        (some "notes") "20240101_120000" "x" 1 2 3 4 (by decide)).2.2.2.2.1).trans (by decide)⟩

/-! ### Claim C8: save-then-list round trip -/

theorem resolve_endsWith_json (custom current : Option String) (ts : String)
    (hcur : ∀ f, current = some f → pyEndsWith f jsonExt = true) :
    pyEndsWith (resolveSaveFilename custom current ts) jsonExt = true := by
  unfold resolveSaveFilename
  cases custom with
  | none =>
    cases current with
    | none => exact pyEndsWith_append _ _
    | some f => exact hcur f rfl
  | some c =>
    by_cases hc : c = ""
    · simp only [hc, if_pos rfl]
      cases current with
      | none => simp only [if_pos rfl]; exact pyEndsWith_append _ _
      | some f => exact hcur f rfl
    · simp only [if_neg hc]
      by_cases hj : pyEndsWith c jsonExt = true
      · simp [hj]
      · simp only [Bool.not_eq_true] at hj
        simp [hj]
        exact pyEndsWith_append _ _

theorem mem_writeFile (fs : FileSystem) (name : String) (mt sz : Nat) (x : FileEntry)
    (hx : x ∈ writeFile fs name mt sz) :
    x = FileEntry.mk name mt sz ∨ (x ∈ fs ∧ x.name ≠ name) := by
  unfold writeFile at hx
  by_cases h : fs.any (fun f => f.name = name) = true
  · rw [if_pos h] at hx
    obtain ⟨y, hy, hmap⟩ := List.mem_map.mp hx
    by_cases hyn : y.name = name
    · left; rw [← hmap]; simp [hyn]
    · right
      rw [← hmap]
      simp [hyn]
      exact hy
  · rw [if_neg h] at hx
    rcases List.mem_append.mp hx with hmem | hone
    · right
      refine ⟨hmem, fun hn => h ?_⟩
      exact List.any_eq_true.mpr ⟨x, hmem, by simp [hn]⟩
    · left; simpa using hone

theorem insertionSort_head_of_strict_max (l : List FileEntry) (e : FileEntry)
    (he : e ∈ l) (hmax : ∀ x ∈ l, x = e ∨ x.mtime < e.mtime) :
    (List.insertionSort newerEq l).head? = some e := by
  have hperm := List.perm_insertionSort newerEq l
  have hsorted := List.sorted_insertionSort newerEq l
  cases hs : List.insertionSort newerEq l with
  | nil =>
    have hmem : e ∈ List.insertionSort newerEq l := hperm.mem_iff.mpr he
    rw [hs] at hmem
    exact absurd hmem (List.not_mem_nil e)
  | cons hd tl =>
    have hhd : hd ∈ l := hperm.mem_iff.mp (by rw [hs]; exact List.mem_cons_self _ _)
    have hel : e ∈ hd :: tl := by rw [← hs]; exact hperm.mem_iff.mpr he
    rcases hmax hd hhd with heq | hlt
    · rw [heq]; rfl
    · rcases List.mem_cons.mp hel with heq2 | het
      · rw [heq2] at hlt; exact absurd hlt (Nat.lt_irrefl _)
      · rw [hs] at hsorted
        have hrel : newerEq hd e := List.rel_of_sorted_cons hsorted e het
        exact absurd hlt (Nat.not_lt.mpr hrel)

/-- Claim C8 counterexample: another record with an equal modification time
(so no record is strictly newer than the saved one) is listed first: the
stable sort keeps the earlier directory entry in front, so the just-saved
record is not ordered first even though no other file has a newer
modification time. -/
theorem save_then_list_tie :
    (save_chat (BotState.mk true [Turn.mk Role.user "q"] "s" none) [FileEntry.mk "a.json" 5 1]
        (some "b") "t" true 5 2).2.2 = some "b.json" ∧
    (∀ x ∈ (save_chat (BotState.mk true [Turn.mk Role.user "q"] "s" none)
        [FileEntry.mk "a.json" 5 1] (some "b") "t" true 5 2).2.1, ¬ 5 < x.mtime) ∧
    (list_saved_chats (save_chat (BotState.mk true [Turn.mk Role.user "q"] "s" none)
        [FileEntry.mk "a.json" 5 1] (some "b") "t" true 5 2).2.1).head?
      = some "a.json" ∧
    ("a.json" : String) ≠ "b.json" :=
  ⟨by decide, by decide, by decide, by decide⟩

/-- Claim C8 (amended): a successful save of a non-empty conversation writes
the resolved record name, and that name appears in the very next listing; it
is listed first whenever every other record file is strictly older than the
written file (with a tied modification time the stable sort may keep another
record first).  Listing is a pure query of the directory: it takes no
conversation state and returns only the names. -/
theorem save_then_list (st : BotState) (fs : FileSystem) (custom : Option String)
    (ts : String) (mt sz : Nat) (hne : st.chat_history ≠ [])
    (hcur : ∀ f, st.current_chat_file = some f → pyEndsWith f jsonExt = true) :
    (save_chat st fs custom ts true mt sz).2.2
      = some (resolveSaveFilename custom st.current_chat_file ts) ∧
    resolveSaveFilename custom st.current_chat_file ts
      ∈ list_saved_chats (save_chat st fs custom ts true mt sz).2.1 ∧
    ((∀ x ∈ fs, x.name ≠ resolveSaveFilename custom st.current_chat_file ts → x.mtime < mt) →
      (list_saved_chats (save_chat st fs custom ts true mt sz).2.1).head?
        = some (resolveSaveFilename custom st.current_chat_file ts)) := by
  have hjson : pyEndsWith (resolveSaveFilename custom st.current_chat_file ts) jsonExt = true :=
    resolve_endsWith_json _ _ _ hcur
  have hfs : (save_chat st fs custom ts true mt sz).2.1
      = writeFile fs (resolveSaveFilename custom st.current_chat_file ts) mt sz := by
    simp [save_chat, hne]
  have hmemf : FileEntry.mk (resolveSaveFilename custom st.current_chat_file ts) mt sz
      ∈ (writeFile fs (resolveSaveFilename custom st.current_chat_file ts) mt sz).filter
        (fun f => pyEndsWith f.name jsonExt) :=
    List.mem_filter.mpr ⟨writeFile_mem_name fs _ mt sz, by simpa using hjson⟩
  refine ⟨by simp [save_chat, hne], ?_, ?_⟩
  · rw [hfs]
    unfold list_saved_chats
    exact List.mem_map.mpr
      ⟨FileEntry.mk (resolveSaveFilename custom st.current_chat_file ts) mt sz,
        (List.perm_insertionSort newerEq _).mem_iff.mpr hmemf, rfl⟩
  · intro hmax
    rw [hfs]
    unfold list_saved_chats
    rw [List.head?_map, insertionSort_head_of_strict_max _
      (FileEntry.mk (resolveSaveFilename custom st.current_chat_file ts) mt sz) hmemf ?_]
    · rfl
    · intro x hx
      rcases mem_writeFile fs _ mt sz x (List.mem_filter.mp hx).1 with heq | ⟨hxfs, hxname⟩
      · left; exact heq
      · right; exact hmax x hxfs hxname

theorem save_then_list_witness :
    ((BotState.mk true [Turn.mk Role.user "q"] "s" none).chat_history ≠ []) ∧
    (save_chat (BotState.mk true [Turn.mk Role.user "q"] "s" none) [FileEntry.mk "old.json" 3 1]
        (some "b") "t" true 5 2).2.2 = some "b.json" ∧
    ("b.json" : String) ∈ list_saved_chats
      (save_chat (BotState.mk true [Turn.mk Role.user "q"] "s" none) [FileEntry.mk "old.json" 3 1]
        (some "b") "t" true 5 2).2.1 ∧
    (list_saved_chats (save_chat (BotState.mk true [Turn.mk Role.user "q"] "s" none)
        [FileEntry.mk "old.json" 3 1] (some "b") "t" true 5 2).2.1).head? = some "b.json" :=
  ⟨by decide,
    ((save_then_list (BotState.mk true [Turn.mk Role.user "q"] "s" none)
        [FileEntry.mk "old.json" 3 1] (some "b") "t" 5 2 (by decide)
        (fun f hf => by simp at hf)).1).trans (by decide),
    by
      have hm := (save_then_list (BotState.mk true [Turn.mk Role.user "q"] "s" none)
        [FileEntry.mk "old.json" 3 1] (some "b") "t" 5 2 (by decide)
        (fun f hf => by simp at hf)).2.1
      simpa using hm,
    by
      have hh := (save_then_list (BotState.mk true [Turn.mk Role.user "q"] "s" none)
        [FileEntry.mk "old.json" 3 1] (some "b") "t" 5 2 (by decide)
        (fun f hf => by simp at hf)).2.2 (by decide)
      simpa using hh⟩

/-! ### Claim C9: process exit codes -/

/-- Claim C9: the modelled `main` exits with code 1 exactly when the model
artifact is missing or engine initialization fails; after a successful
startup every run of the command loop — quit aliases, chat interruptions and
stream errors, save failures, malformed or unknown commands, even the
loop-aborting bare `/` — finishes with exit code 0, so no per-request error
produces a non-zero exit. -/
theorem main_exit_codes (modelExists loadOk : Bool) (st : BotState) (fs : FileSystem)
    (events : List InputEvent) :
    (mainRun modelExists loadOk st fs events).1
      = if modelExists && loadOk then 0 else 1 := by
  cases modelExists <;> cases loadOk <;> simp [mainRun]
